import Mathlib

/-
Verification of the favorites persistence service and the theme preference
service of `src/script.ts` (travel destination explorer).

Modelling decisions:

* Persisted values live in the browser's local storage under a fixed key.
  `localStorage.getItem` returns a string or `null`; the favorites code only
  ever inspects the stored string through `JSON.parse`.  We therefore model
  the stored cell by its parse outcome: `none` for an absent (or falsy, i.e.
  empty-string) value, `some (Except.error ())` for a present string that
  `JSON.parse` rejects, and `some (Except.ok v)` for a present string whose
  parse result is the JSON value `v`.  `JSON.stringify` on the arrays the
  service writes is injective and is inverted by `JSON.parse`, so writing is
  modelled as storing the serialized value's parse, i.e. the value itself.

* JavaScript runtime values reachable from `JSON.parse` are modelled by the
  inductive `JsVal` (null, booleans, numbers, strings, arrays, objects).
  Numbers are modelled as integers: every number the service itself writes
  (`id`, `timestamp`) is an integer.

* `fav.id` member access on a non-object yields `undefined` (modelled as
  `none`), except on `null`, where it throws a `TypeError`; array callbacks
  that can throw make the enclosing operation return `Option`, with `none`
  standing for an uncaught exception.

* `localStorage.setItem` can throw (quota).  Each mutating operation takes a
  `writeOk : Bool` flag telling whether the `setItem` call inside
  `writeFavorites` succeeds on this invocation.

* Listener notification (`listeners.forEach (listener => listener(favorites))`)
  is modelled by appending the notified collection to a `notified` log; the
  length of the log counts the notifications fired.
-/

namespace Explorador

/-- JavaScript values produced by `JSON.parse` (and consumed by
`JSON.stringify`): null, booleans, numbers (integral), strings, arrays and
plain objects with ordered fields. -/
inductive JsVal where
  | null : JsVal
  | boolean : Bool → JsVal
  | num : Int → JsVal
  | str : String → JsVal
  | arr : List JsVal → JsVal
  | obj : List (String × JsVal) → JsVal
deriving Repr

/-- `interface Post` from `script.ts` (lines 1-6). -/
structure Post where
  userId : Int
  id : Int
  title : String
  body : String
deriving Repr, DecidableEq

/-- `interface Favorite` from `script.ts` (lines 8-12). -/
structure Favorite where
  id : Int
  title : String
  timestamp : Int
deriving Repr, DecidableEq

/-- The stored string under the favorites key, abstracted by its JSON parse
outcome: absent/empty, unparseable, or a parsed JSON value. -/
def StoreCell : Type := Option (Except Unit JsVal)

/-- State of the favorites service: the persisted cell plus the log of
collections passed to the subscribed listeners. -/
structure FavState where
  cell : StoreCell
  notified : List JsVal

/-- The service's starting state: nothing stored, no notification fired. -/
def emptyState : FavState := ⟨none, []⟩

/-- `getFavorites` (script.ts lines 207-215):
`const stored = localStorage.getItem(storageKey); return stored ? JSON.parse(stored) : [];`
wrapped in a `try`/`catch` that logs and returns `[]` on a parse failure.
An absent or empty stored string yields `[]`; a parse failure is caught and
yields `[]`; a successful parse is returned as-is, without validation. -/
def getFavorites (cell : StoreCell) : JsVal :=
  match cell with
  | none => JsVal.arr []
  | some (Except.error _) => JsVal.arr []
  | some (Except.ok v) => v

/-- `writeFavorites` (script.ts lines 217-224):
`try { localStorage.setItem(storageKey, JSON.stringify(favorites)); listeners.forEach(l => l(favorites)); } catch ...`.
When `setItem` succeeds the serialized collection is stored and every
listener is notified with the in-memory collection; when `setItem` throws,
the exception is caught (logged only), so the cell keeps its old value and
— the notification statement being after `setItem` inside the `try` —
no listener is notified. -/
def writeFavorites (writeOk : Bool) (st : FavState) (favorites : JsVal) : FavState :=
  if writeOk then ⟨some (Except.ok favorites), st.notified ++ [favorites]⟩
  else st

/-- JS member access `v.id`: the field of a plain object, `undefined`
(`none`) otherwise.  (Access on `null` throws; callers check first.) -/
def getField (v : JsVal) (key : String) : Option JsVal :=
  match v with
  | JsVal.obj fields => (fields.find? (fun p => p.1 == key)).map (fun p => p.2)
  | _ => none

/-- Whether a JS value is `null` (member access on it would throw). -/
def isNull : JsVal → Bool
  | JsVal.null => true
  | _ => false

/-- The callback `fav => fav.id === post.id`: strict equality of the `id`
member against the number `pid`; true only when the member is a number with
that value. -/
def idMatches (v : JsVal) (pid : Int) : Bool :=
  match getField v "id" with
  | some (JsVal.num m) => m == pid
  | _ => false

/-- `favorites.some(fav => fav.id === post.id)` over the parsed array's
elements, with early exit; `none` models the `TypeError` thrown when the
callback touches a `null` element. -/
def someIdEq : List JsVal → Int → Option Bool
  | [], _ => some false
  | v :: vs, pid =>
    if isNull v then none
    else if idMatches v pid then some true
    else someIdEq vs pid

/-- `favorites.filter(fav => fav.id !== id)` over the parsed array's
elements; `none` models the `TypeError` on a `null` element. -/
def filterIdNe : List JsVal → Int → Option (List JsVal)
  | [], _ => some []
  | v :: vs, pid =>
    if isNull v then none
    else (filterIdNe vs pid).map (fun rest => if idMatches v pid then rest else v :: rest)

/-- The candidate built by `addFavorite`:
`{ id: post.id, title: post.title, timestamp: Date.now() }` with `Date.now()`
passed in as `now`. -/
def mkFavorite (post : Post) (now : Int) : Favorite :=
  ⟨post.id, post.title, now⟩

/-- The JSON encoding of one favorite record, fields in the literal's
insertion order, as `JSON.stringify`/`JSON.parse` round-trip it. -/
def encodeFav (f : Favorite) : JsVal :=
  JsVal.obj [("id", JsVal.num f.id), ("title", JsVal.str f.title),
             ("timestamp", JsVal.num f.timestamp)]

/-- The JSON encoding of a favorites collection: the array of encoded
records in order. -/
def encodeFavs (l : List Favorite) : JsVal :=
  JsVal.arr (l.map encodeFav)

/-- `addFavorite` (script.ts lines 226-243): read the collection, return
`false` if some entry's `id` strictly equals `post.id`, otherwise unshift
the new favorite, persist through `writeFavorites` and return `true`.
`none` models an uncaught `TypeError` (stored value not an array, or a
`null` element). -/
def addFavorite (writeOk : Bool) (st : FavState) (post : Post) (now : Int) :
    Option (FavState × Bool) :=
  match getFavorites st.cell with
  | JsVal.arr favorites =>
    match someIdEq favorites post.id with
    | none => none
    | some true => some (st, false)
    | some false =>
        some (writeFavorites writeOk st
          (JsVal.arr (encodeFav (mkFavorite post now) :: favorites)), true)
  | _ => none

/-- `removeFavorite` (script.ts lines 245-249): read the collection, filter
out entries whose `id` strictly equals `id`, persist through
`writeFavorites`.  `none` models an uncaught `TypeError`. -/
def removeFavorite (writeOk : Bool) (st : FavState) (id : Int) : Option FavState :=
  match getFavorites st.cell with
  | JsVal.arr favorites =>
    (filterIdNe favorites id).map (fun filtered =>
      writeFavorites writeOk st (JsVal.arr filtered))
  | _ => none

/-- `clearAllFavorites` (script.ts lines 251-253): `writeFavorites([])`. -/
def clearAllFavorites (writeOk : Bool) (st : FavState) : FavState :=
  writeFavorites writeOk st (JsVal.arr [])

/-- Interpretation of one parsed JSON value as a favorite record, for
stating round-trip/readback properties (the shape `displayFavorites`
consumes: `fav.id`, `fav.title`, `fav.timestamp`). -/
def decodeFav : JsVal → Option Favorite
  | JsVal.obj [("id", JsVal.num i), ("title", JsVal.str t), ("timestamp", JsVal.num ts)] =>
      some ⟨i, t, ts⟩
  | _ => none

/-- Interpretation of a list of parsed values as favorite records. -/
def decodeList : List JsVal → Option (List Favorite)
  | [] => some []
  | v :: vs =>
    match decodeFav v, decodeList vs with
    | some f, some fs => some (f :: fs)
    | _, _ => none

/-- Interpretation of a parsed JSON value as a favorites collection. -/
def decodeFavs (v : JsVal) : Option (List Favorite) :=
  match v with
  | JsVal.arr elems => decodeList elems
  | _ => none

/-- The stored cell reads back, through `getFavorites`, as the encoding of
the favorites list `l` (also true of an absent cell and `l = []`). -/
def readsAs (st : FavState) (l : List Favorite) : Prop :=
  getFavorites st.cell = encodeFavs l

/-- One call against the favorites service, with the success flag of the
`localStorage.setItem` inside it. -/
inductive Op where
  | add : Post → Int → Bool → Op
  | remove : Int → Bool → Op
  | clear : Bool → Op

/-- Execute one call, ignoring `addFavorite`'s boolean result. -/
def applyOp (st : FavState) : Op → Option FavState
  | Op.add post now writeOk => (addFavorite writeOk st post now).map Prod.fst
  | Op.remove id writeOk => removeFavorite writeOk st id
  | Op.clear writeOk => some (clearAllFavorites writeOk st)

/-- Execute a sequence of calls; `none` as soon as one throws. -/
def runOps (st : FavState) : List Op → Option FavState
  | [] => some st
  | op :: ops =>
    match applyOp st op with
    | none => none
    | some st' => runOps st' ops

/-- The stored collection decodes to a list of favorite records with
pairwise distinct ids. -/
def storedUnique (st : FavState) : Bool :=
  match decodeFavs (getFavorites st.cell) with
  | some l => decide ((l.map Favorite.id).Nodup)
  | none => false

/-- A sequence of `addFavorite` calls (post and `Date.now()` per call), all
with a succeeding store write. -/
def addOps (calls : List (Post × Int)) : List Op :=
  calls.map (fun q => Op.add q.1 q.2 true)

/-- The favorite records those calls construct, in call order. -/
def mkFavs (calls : List (Post × Int)) : List Favorite :=
  calls.map (fun q => mkFavorite q.1 q.2)

/-- `type Theme = 'light' | 'dark'` (script.ts line 19). -/
inductive Theme where
  | light : Theme
  | dark : Theme
deriving Repr, DecidableEq

/-- `getSystemTheme` (script.ts lines 86-90):
`window.matchMedia?.('(prefers-color-scheme: dark)').matches ? 'dark' : 'light'`.
`sys` is `none` when `window.matchMedia` is unavailable (the optional chain
then yields `undefined`, which is falsy) and `some m` for the media query's
`matches` flag. -/
def getSystemTheme (sys : Option Bool) : Theme :=
  match sys with
  | some true => Theme.dark
  | _ => Theme.light

/-- `getSavedTheme` (script.ts lines 92-97): the stored string when it is
exactly `'dark'` or `'light'`, `null` otherwise (including an absent key). -/
def getSavedTheme (saved : Option String) : Option Theme :=
  match saved with
  | some s => if s = "dark" then some Theme.dark
              else if s = "light" then some Theme.light
              else none
  | none => none

/-- `let currentTheme: Theme = getSavedTheme() ?? getSystemTheme()`
(script.ts line 97). -/
def initialTheme (saved : Option String) (sys : Option Bool) : Theme :=
  (getSavedTheme saved).getD (getSystemTheme sys)

/-- The literal string stored for a theme. -/
def themeName : Theme → String
  | Theme.light => "light"
  | Theme.dark => "dark"

/-- State of the theme service: the `currentTheme` variable, the stored
string under the theme key, and the log of themes passed to listeners. -/
structure ThemeState where
  currentTheme : Theme
  stored : Option String
  notified : List Theme

/-- `setTheme` (script.ts lines 103-108): update `currentTheme`, persist the
literal, apply the DOM attribute (external effect, not modelled) and notify
every listener with the theme. -/
def setTheme (st : ThemeState) (theme : Theme) : ThemeState :=
  ⟨theme, some (themeName theme), st.notified ++ [theme]⟩

/-- `toggleTheme` (script.ts lines 110-112):
`setTheme(currentTheme === 'dark' ? 'light' : 'dark')`. -/
def toggleTheme (st : ThemeState) : ThemeState :=
  setTheme st (if st.currentTheme = Theme.dark then Theme.light else Theme.dark)

/-! ### Basic lemmas about the encoding and the array callbacks -/

theorem isNull_encodeFav (f : Favorite) : isNull (encodeFav f) = false := rfl

theorem idMatches_encodeFav (f : Favorite) (pid : Int) :
    idMatches (encodeFav f) pid = (f.id == pid) := rfl

/-- On an array of encoded favorites, `favorites.some(fav => fav.id === pid)`
never throws and answers whether some record's id equals `pid`. -/
theorem someIdEq_encode (l : List Favorite) (pid : Int) :
    someIdEq (l.map encodeFav) pid = some (l.any (fun f => f.id == pid)) := by
  induction l with
  | nil => rfl
  | cons f l ih =>
    simp only [List.map_cons, someIdEq, List.any_cons, isNull_encodeFav,
      Bool.false_eq_true, if_false, idMatches_encodeFav]
    by_cases hc : (f.id == pid) = true
    · simp [hc]
    · simp [hc, ih]

/-- On an array of encoded favorites, `favorites.filter(fav => fav.id !== pid)`
never throws and keeps exactly the records whose id differs from `pid`. -/
theorem filterIdNe_encode (l : List Favorite) (pid : Int) :
    filterIdNe (l.map encodeFav) pid =
      some ((l.filter (fun f => !(f.id == pid))).map encodeFav) := by
  induction l with
  | nil => rfl
  | cons f l ih =>
    simp only [List.map_cons, filterIdNe, isNull_encodeFav, Bool.false_eq_true, if_false,
      ih, idMatches_encodeFav, List.filter_cons]
    by_cases hc : (f.id == pid) = true
    · simp [hc]
    · simp [hc]

/-- Characterization of `addFavorite` on a state whose cell reads as the
favorites list `l`. -/
theorem addFavorite_eq (writeOk : Bool) (st : FavState) (l : List Favorite)
    (post : Post) (now : Int) (h : readsAs st l) :
    addFavorite writeOk st post now =
      if l.any (fun f => f.id == post.id) then some (st, false)
      else some (writeFavorites writeOk st (encodeFavs (mkFavorite post now :: l)), true) := by
  unfold addFavorite
  rw [h]
  show (match encodeFavs l with
        | JsVal.arr favorites => _
        | _ => none) = _
  simp only [encodeFavs, someIdEq_encode]
  by_cases hany : l.any (fun f => f.id == post.id) = true
  · simp [hany]
  · simp [hany, List.map_cons]

/-- Characterization of `removeFavorite` on a state whose cell reads as the
favorites list `l`. -/
theorem removeFavorite_eq (writeOk : Bool) (st : FavState) (l : List Favorite)
    (i : Int) (h : readsAs st l) :
    removeFavorite writeOk st i =
      some (writeFavorites writeOk st (encodeFavs (l.filter (fun f => !(f.id == i))))) := by
  unfold removeFavorite
  rw [h]
  simp only [encodeFavs, filterIdNe_encode]
  rfl

theorem decodeFav_encodeFav (f : Favorite) : decodeFav (encodeFav f) = some f := rfl

/-- Decoding inverts encoding on favorites collections. -/
theorem decodeFavs_encodeFavs (l : List Favorite) :
    decodeFavs (encodeFavs l) = some l := by
  show decodeList (l.map encodeFav) = some l
  induction l with
  | nil => rfl
  | cons f l ih => simp [decodeList, decodeFav_encodeFav, ih]

/-- A successful write makes the cell read back as the written value. -/
theorem getFavorites_write_true (st : FavState) (v : JsVal) :
    getFavorites (writeFavorites true st v).cell = v := rfl

theorem writeFavorites_false (st : FavState) (v : JsVal) :
    writeFavorites false st v = st := rfl

theorem readsAs_emptyState : readsAs emptyState [] := rfl

/-! ### The uniqueness invariant -/

/-- The cell reads back as some favorites list with pairwise distinct ids. -/
def FavInv (st : FavState) : Prop :=
  ∃ l, readsAs st l ∧ (l.map Favorite.id).Nodup

/-- Every single service call preserves the uniqueness invariant. -/
theorem applyOp_inv (st : FavState) (op : Op) (st' : FavState)
    (h : FavInv st) (hstep : applyOp st op = some st') : FavInv st' := by
  obtain ⟨l, hl, hnd⟩ := h
  cases op with
  | add post now writeOk =>
    simp only [applyOp, addFavorite_eq writeOk st l post now hl] at hstep
    by_cases hany : l.any (fun f => f.id == post.id) = true
    · simp [hany] at hstep
      exact hstep ▸ ⟨l, hl, hnd⟩
    · simp [hany] at hstep
      cases writeOk with
      | false => rw [writeFavorites_false] at hstep; exact hstep ▸ ⟨l, hl, hnd⟩
      | true =>
        refine hstep ▸ ⟨mkFavorite post now :: l, ?_, ?_⟩
        · exact getFavorites_write_true st _
        · simp only [List.map_cons, List.nodup_cons]
          refine ⟨?_, hnd⟩
          intro hmem
          obtain ⟨f, hf, hfid⟩ := List.mem_map.mp hmem
          have := (List.any_eq_false.mp (Bool.not_eq_true _ ▸ hany)) f hf
          simp only [mkFavorite] at hfid
          simp [hfid] at this
  | remove i writeOk =>
    simp only [applyOp, removeFavorite_eq writeOk st l i hl, Option.some.injEq] at hstep
    cases writeOk with
    | false => rw [writeFavorites_false] at hstep; exact hstep ▸ ⟨l, hl, hnd⟩
    | true =>
      refine hstep ▸ ⟨l.filter (fun f => !(f.id == i)), getFavorites_write_true st _, ?_⟩
      exact hnd.sublist (List.Sublist.map _ (List.filter_sublist l))
  | clear writeOk =>
    simp only [applyOp, clearAllFavorites, Option.some.injEq] at hstep
    cases writeOk with
    | false => rw [writeFavorites_false] at hstep; exact hstep ▸ ⟨l, hl, hnd⟩
    | true => exact hstep ▸ ⟨[], getFavorites_write_true st _, by simp⟩

/-- Any completed sequence of calls preserves the uniqueness invariant. -/
theorem runOps_inv (ops : List Op) (st st' : FavState)
    (h : FavInv st) (hrun : runOps st ops = some st') : FavInv st' := by
  induction ops generalizing st with
  | nil => simp [runOps] at hrun; exact hrun ▸ h
  | cons op ops ih =>
    simp only [runOps] at hrun
    cases hstep : applyOp st op with
    | none => rw [hstep] at hrun; exact absurd hrun (by simp)
    | some st1 =>
      rw [hstep] at hrun
      exact ih st1 (applyOp_inv st op st1 h hstep) hrun

/-- From any state reading as `l`, a run of `addFavorite` calls whose ids
are mutually distinct and absent from `l` completes and leaves the cell
reading as those favorites, reversed, in front of `l`. -/
theorem runOps_addOps (calls : List (Post × Int)) (st : FavState) (l : List Favorite)
    (hread : readsAs st l)
    (hdisj : ∀ q ∈ calls, ∀ f ∈ l, f.id ≠ q.1.id)
    (hnd : (calls.map (fun q => q.1.id)).Nodup) :
    ∃ st', runOps st (addOps calls) = some st' ∧
      readsAs st' ((mkFavs calls).reverse ++ l) := by
  induction calls generalizing st l with
  | nil => exact ⟨st, rfl, by simpa [mkFavs] using hread⟩
  | cons q calls ih =>
    have hany : l.any (fun f => f.id == q.1.id) = false := by
      simp only [List.any_eq_false]
      intro f hf
      simpa using hdisj q (List.mem_cons_self q calls) f hf
    have hstep : applyOp st (Op.add q.1 q.2 true) =
        some (writeFavorites true st (encodeFavs (mkFavorite q.1 q.2 :: l))) := by
      simp [applyOp, addFavorite_eq true st l q.1 q.2 hread, hany]
    set st1 := writeFavorites true st (encodeFavs (mkFavorite q.1 q.2 :: l)) with hst1
    have hread1 : readsAs st1 (mkFavorite q.1 q.2 :: l) := getFavorites_write_true st _
    have hnd1 : (calls.map (fun r => r.1.id)).Nodup := (List.nodup_cons.mp hnd).2
    have hdisj1 : ∀ r ∈ calls, ∀ f ∈ mkFavorite q.1 q.2 :: l, f.id ≠ r.1.id := by
      intro r hr f hf
      cases hf with
      | head =>
        show q.1.id ≠ r.1.id
        intro heq
        exact (List.nodup_cons.mp hnd).1
          (List.mem_map.mpr ⟨r, hr, heq.symm⟩)
      | tail _ hf' => exact hdisj r (List.mem_cons_of_mem q hr) f hf'
    obtain ⟨st', hrun, hread'⟩ := ih st1 (mkFavorite q.1 q.2 :: l) hread1 hdisj1 hnd1
    refine ⟨st', ?_, ?_⟩
    · simp only [addOps, List.map_cons, runOps, hstep]
      exact hrun
    · simpa [mkFavs, List.append_assoc] using hread'

/-! ### Removal helpers -/

def filteredFavs (l : List Favorite) (i : Int) : List Favorite :=
  l.filter (fun f => !(f.id == i))

theorem filteredFavs_not_mem (l : List Favorite) (i : Int) :
    i ∉ (filteredFavs l i).map Favorite.id := by
  intro hmem
  obtain ⟨f, hf, hfid⟩ := List.mem_map.mp hmem
  have := (List.mem_filter.mp hf).2
  simp [hfid] at this

theorem filteredFavs_eq_of_not_mem (l : List Favorite) (i : Int)
    (h : i ∉ l.map Favorite.id) : filteredFavs l i = l := by
  apply List.filter_eq_self.mpr
  intro f hf
  simp only [Bool.not_eq_eq_eq_not, Bool.not_true, beq_eq_false_iff_ne]
  intro heq
  exact h (List.mem_map.mpr ⟨f, hf, heq⟩)

theorem filteredFavs_length_of_mem (l : List Favorite) (i : Int)
    (hnd : (l.map Favorite.id).Nodup) (hmem : i ∈ l.map Favorite.id) :
    (filteredFavs l i).length = l.length - 1 := by
  induction l with
  | nil => simp at hmem
  | cons f l ih =>
    simp only [List.map_cons, List.nodup_cons] at hnd
    rcases List.mem_cons.mp hmem with heq | hmem'
    · have hfl : filteredFavs l i = l := by
        apply filteredFavs_eq_of_not_mem
        rw [heq]
        exact hnd.1
      show (List.filter _ (f :: l)).length = _
      rw [List.filter_cons]
      have : (!(f.id == i)) = false := by simp [heq]
      rw [this]
      simpa [filteredFavs] using congrArg List.length hfl
    · have hne : (f.id == i) = false := by
        simp only [beq_eq_false_iff_ne]
        intro heq
        exact hnd.1 (heq ▸ hmem')
      have hlen := ih hnd.2 hmem'
      have hpos : 0 < l.length := by
        cases l with
        | nil => simp at hmem'
        | cons g l => simp
      show (List.filter _ (f :: l)).length = _
      rw [List.filter_cons]
      simp only [hne, Bool.not_false, if_true, List.length_cons]
      have hlen' : (List.filter (fun f => !(f.id == i)) l).length = l.length - 1 := hlen
      omega

/-! ### Concrete data for witnesses -/

/-- A sample post with the given id and title. -/
def demoPost (i : Int) (t : String) : Post := ⟨1, i, t, "corpo"⟩

/-- A sample stored collection: Paris added after Tokyo, newest first. -/
def demoFavs : List Favorite := [⟨42, "Paris", 200⟩, ⟨7, "Tokyo", 100⟩]

/-- A sample service state storing `demoFavs`, no notification fired yet. -/
def demoState : FavState := ⟨some (Except.ok (encodeFavs demoFavs)), []⟩

/-- A sample call sequence mixing duplicate adds, removals of present and
absent ids, failing writes and a clear. -/
def demoOps : List Op :=
  [Op.add (demoPost 7 "Tokyo") 100 true,
   Op.add (demoPost 42 "Paris") 200 true,
   Op.add (demoPost 7 "Tokyo") 300 true,
   Op.remove 42 true,
   Op.clear false,
   Op.add (demoPost 9 "Rio") 400 false,
   Op.remove 5 true]

/-- Two `addFavorite` calls with distinct ids (the spec's Tokyo/Paris
scenario). -/
def demoCalls : List (Post × Int) :=
  [(demoPost 7 "Tokyo", 100), (demoPost 42 "Paris", 200)]

/-! ### The claims -/

/-- Claim C1: every favorites collection reachable from the empty collection
by any sequence of `addFavorite`, `removeFavorite` and `clearAllFavorites`
calls (with the store write succeeding or failing arbitrarily at each call)
stores a collection in which no two entries share the same `id`. -/
theorem favorites_ids_unique (ops : List Op) (st' : FavState)
    (h : runOps emptyState ops = some st') : storedUnique st' = true := by
  obtain ⟨l, hl, hnd⟩ :=
    runOps_inv ops emptyState st' ⟨[], readsAs_emptyState, by simp⟩ h
  unfold storedUnique
  rw [readsAs] at hl
  rw [hl, decodeFavs_encodeFavs]
  exact decide_eq_true hnd

/-- Witness for C1 on the concrete call sequence `demoOps`. -/
theorem favorites_ids_unique_witness :
    storedUnique ((runOps emptyState demoOps).getD emptyState) = true :=
  favorites_ids_unique demoOps _ (by rfl)

/-- Claim C2: starting from an empty store, a sequence of `addFavorite`
calls with pairwise distinct ids leaves `getFavorites` returning exactly
the constructed favorites in reverse call order (most recent first), each
new favorite having been prepended. -/
theorem addAll_newest_first (calls : List (Post × Int)) (st' : FavState)
    (hnd : (calls.map (fun q => q.1.id)).Nodup)
    (hrun : runOps emptyState (addOps calls) = some st') :
    decodeFavs (getFavorites st'.cell) = some ((mkFavs calls).reverse) := by
  obtain ⟨st'', hrun', hread⟩ :=
    runOps_addOps calls emptyState [] readsAs_emptyState (by simp) hnd
  rw [hrun] at hrun'
  cases hrun'
  rw [readsAs] at hread
  simp only [List.append_nil] at hread
  rw [hread, decodeFavs_encodeFavs]

/-- Witness for C2 on the Tokyo-then-Paris scenario. -/
theorem addAll_newest_first_witness :
    (demoCalls.map (fun q => q.1.id)).Nodup ∧
    decodeFavs (getFavorites ((runOps emptyState (addOps demoCalls)).getD emptyState).cell)
      = some ((mkFavs demoCalls).reverse) :=
  ⟨by decide, addAll_newest_first demoCalls _ (by decide) (by rfl)⟩

/-- Claim C3: when the stored collection already contains an entry with the
post's id, `addFavorite` returns `false` and leaves the state — both the
stored cell (hence any subsequent `getFavorites`) and the notification log
(no listener invoked) — exactly unchanged, whether or not a store write
would have succeeded. -/
theorem addFavorite_duplicate_noop (writeOk : Bool) (st : FavState) (l : List Favorite)
    (post : Post) (now : Int) (hread : readsAs st l)
    (hmem : post.id ∈ l.map Favorite.id) :
    addFavorite writeOk st post now = some (st, false) := by
  rw [addFavorite_eq writeOk st l post now hread]
  have hany : l.any (fun f => f.id == post.id) = true := by
    obtain ⟨f, hf, hfid⟩ := List.mem_map.mp hmem
    exact List.any_eq_true.mpr ⟨f, hf, by simp [hfid]⟩
  simp [hany]

/-- Witness for C3: re-adding Tokyo (id 7) to `demoState`. -/
theorem addFavorite_duplicate_noop_witness :
    readsAs demoState demoFavs ∧ (7 : Int) ∈ demoFavs.map Favorite.id ∧
    addFavorite true demoState (demoPost 7 "Tokyo de novo") 900 = some (demoState, false) :=
  ⟨rfl, by decide,
    addFavorite_duplicate_noop true demoState demoFavs (demoPost 7 "Tokyo de novo") 900
      rfl (by decide)⟩

/-- Claim C4, counterexample: with a failing store write, a mutating call
(`clearAllFavorites` on the empty state) fires no listener notification —
the notification log stays empty instead of receiving the new collection
`[]`, because the `listeners.forEach` call sits after `setItem` inside the
`try` block and is skipped when `setItem` throws. -/
theorem failed_write_skips_notification_cex :
    (clearAllFavorites false emptyState).notified = [] ∧
    (clearAllFavorites false emptyState).notified ≠ [JsVal.arr []] := by
  constructor
  · rfl
  · intro h
    have h0 : ([] : List JsVal) = [JsVal.arr []] :=
      Eq.trans (rfl : ([] : List JsVal) = (clearAllFavorites false emptyState).notified) h
    exact List.noConfusion h0

/-- Claim C4, amended: when the store's `set` operation throws, every
mutating operation swallows the error without propagating it to the caller
(`addFavorite` even still returns `true`), but subscriber listeners are
*not* notified and the stored cell keeps its old value: the whole state is
unchanged. -/
theorem failed_write_swallowed_unnotified (st : FavState) (l : List Favorite)
    (post : Post) (now i : Int) (hread : readsAs st l)
    (hnew : post.id ∉ l.map Favorite.id) :
    addFavorite false st post now = some (st, true) ∧
    removeFavorite false st i = some st ∧
    clearAllFavorites false st = st := by
  refine ⟨?_, ?_, rfl⟩
  · rw [addFavorite_eq false st l post now hread]
    have hany : l.any (fun f => f.id == post.id) = false := by
      simp only [List.any_eq_false]
      intro f hf
      simp only [beq_iff_eq]
      intro heq
      exact hnew (List.mem_map.mpr ⟨f, hf, heq⟩)
    simp [hany, writeFavorites_false]
  · rw [removeFavorite_eq false st l i hread, writeFavorites_false]

/-- Witness for the amended C4 on `demoState`. -/
theorem failed_write_swallowed_unnotified_witness :
    readsAs demoState demoFavs ∧ (9 : Int) ∉ demoFavs.map Favorite.id ∧
    (addFavorite false demoState (demoPost 9 "Rio") 300 = some (demoState, true) ∧
     removeFavorite false demoState 7 = some demoState ∧
     clearAllFavorites false demoState = demoState) :=
  ⟨rfl, by decide,
    failed_write_swallowed_unnotified demoState demoFavs (demoPost 9 "Rio") 300 7
      rfl (by decide)⟩

/-- Claim C5, counterexample: a stored value that parses as JSON but is not
a valid sequence of Favorite records (the number `42`) is returned as-is by
`getFavorites`, not replaced by the empty sequence: only `JSON.parse`
failures are caught, no shape validation happens. -/
theorem getFavorites_unvalidated_cex :
    getFavorites (some (Except.ok (JsVal.num 42))) = JsVal.num 42 ∧
    getFavorites (some (Except.ok (JsVal.num 42))) ≠ JsVal.arr [] := by
  refine ⟨rfl, ?_⟩
  intro h
  exact JsVal.noConfusion h

/-- Claim C5, amended: `getFavorites` never raises; an absent key or a
stored value on which `JSON.parse` throws yields the empty sequence (the
failure is only logged), but any value that parses successfully is returned
unvalidated, whether or not it is a valid sequence of Favorite records. -/
theorem getFavorites_fail_open :
    getFavorites none = JsVal.arr [] ∧
    getFavorites (some (Except.error ())) = JsVal.arr [] ∧
    (∀ v : JsVal, getFavorites (some (Except.ok v)) = v) :=
  ⟨rfl, rfl, fun _ => rfl⟩

/-- Claim C7: for every favorites collection (empty or not), writing it
through `writeFavorites` (with the write succeeding) and reading it back
through `getFavorites` yields the identical ordered sequence of records. -/
theorem write_then_read_roundtrip (st : FavState) (favs : List Favorite) :
    decodeFavs (getFavorites (writeFavorites true st (encodeFavs favs)).cell) = some favs := by
  rw [getFavorites_write_true, decodeFavs_encodeFavs]

/-- Claim C6: on a stored collection with pairwise distinct ids,
`removeFavorite i` rewrites the cell with the entries whose id differs from
`i` and fires exactly one notification (also when nothing was removed); the
length drops by exactly 1 when `i` was present and is unchanged otherwise,
and no entry with id `i` remains. -/
theorem removeFavorite_behavior (st : FavState) (l : List Favorite) (i : Int)
    (hread : readsAs st l) (hnd : (l.map Favorite.id).Nodup) :
    removeFavorite true st i =
      some ⟨some (Except.ok (encodeFavs (filteredFavs l i))),
            st.notified ++ [encodeFavs (filteredFavs l i)]⟩ ∧
    (filteredFavs l i).length =
      (if i ∈ l.map Favorite.id then l.length - 1 else l.length) ∧
    i ∉ (filteredFavs l i).map Favorite.id := by
  refine ⟨?_, ?_, filteredFavs_not_mem l i⟩
  · rw [removeFavorite_eq true st l i hread]
    rfl
  · by_cases hmem : i ∈ l.map Favorite.id
    · rw [if_pos hmem]
      exact filteredFavs_length_of_mem l i hnd hmem
    · rw [if_neg hmem, filteredFavs_eq_of_not_mem l i hmem]

/-- Witness for C6: removing the present id 7 from `demoState`. -/
theorem removeFavorite_behavior_witness :
    readsAs demoState demoFavs ∧ (demoFavs.map Favorite.id).Nodup ∧
    (removeFavorite true demoState 7 =
      some ⟨some (Except.ok (encodeFavs (filteredFavs demoFavs 7))),
            demoState.notified ++ [encodeFavs (filteredFavs demoFavs 7)]⟩ ∧
    (filteredFavs demoFavs 7).length =
      (if (7 : Int) ∈ demoFavs.map Favorite.id then demoFavs.length - 1 else demoFavs.length) ∧
    (7 : Int) ∉ (filteredFavs demoFavs 7).map Favorite.id) :=
  ⟨rfl, by decide, removeFavorite_behavior demoState demoFavs 7 rfl (by decide)⟩

/-- Claim C8: the initial theme is the stored user choice when the stored
value is exactly `'light'` or `'dark'`; otherwise it is the
operating-system-reported preference; and without a reported system
preference it is `'light'`. -/
theorem initialTheme_resolution (saved : Option String) (sys : Option Bool) :
    initialTheme saved sys =
      (if saved = some "light" then Theme.light
       else if saved = some "dark" then Theme.dark
       else getSystemTheme sys) ∧
    getSystemTheme none = Theme.light := by
  refine ⟨?_, rfl⟩
  cases saved with
  | none => simp [initialTheme, getSavedTheme]
  | some s =>
    by_cases hd : s = "dark"
    · simp [initialTheme, getSavedTheme, hd]
    · by_cases hl : s = "light"
      · simp [initialTheme, getSavedTheme, hd, hl]
      · simp [initialTheme, getSavedTheme, hd, hl]

/-- Claim C9: when the stored collection does not contain the post's id,
`addFavorite` succeeds (`true`), stores exactly the new favorite prepended
to the previous entries — every previous favorite unchanged and shifted one
position later, the new entry at position 0 — and fires one notification
with the new collection. -/
theorem addFavorite_frame (st : FavState) (l : List Favorite) (post : Post) (now : Int)
    (hread : readsAs st l) (hnew : post.id ∉ l.map Favorite.id) :
    addFavorite true st post now =
      some (⟨some (Except.ok (encodeFavs (mkFavorite post now :: l))),
             st.notified ++ [encodeFavs (mkFavorite post now :: l)]⟩, true) ∧
    (mkFavorite post now :: l)[0]? = some (mkFavorite post now) ∧
    ∀ k : Nat, (mkFavorite post now :: l)[k + 1]? = l[k]? := by
  refine ⟨?_, by simp, fun k => by simp⟩
  rw [addFavorite_eq true st l post now hread]
  have hany : l.any (fun f => f.id == post.id) = false := by
    simp only [List.any_eq_false]
    intro f hf
    simp only [beq_iff_eq]
    intro heq
    exact hnew (List.mem_map.mpr ⟨f, hf, heq⟩)
  simp [hany]
  rfl

/-- Witness for C9: adding Rio (id 9) to `demoState`. -/
theorem addFavorite_frame_witness :
    readsAs demoState demoFavs ∧ (9 : Int) ∉ demoFavs.map Favorite.id ∧
    (addFavorite true demoState (demoPost 9 "Rio") 300 =
      some (⟨some (Except.ok (encodeFavs (mkFavorite (demoPost 9 "Rio") 300 :: demoFavs))),
             demoState.notified ++ [encodeFavs (mkFavorite (demoPost 9 "Rio") 300 :: demoFavs)]⟩, true) ∧
    (mkFavorite (demoPost 9 "Rio") 300 :: demoFavs)[0]? = some (mkFavorite (demoPost 9 "Rio") 300) ∧
    ∀ k : Nat, (mkFavorite (demoPost 9 "Rio") 300 :: demoFavs)[k + 1]? = demoFavs[k]?) :=
  ⟨rfl, by decide, addFavorite_frame demoState demoFavs (demoPost 9 "Rio") 300 rfl (by decide)⟩

/-- Claim C10: toggling the theme twice returns the current theme to its
original value, whatever the current theme is. -/
theorem toggleTheme_involution (st : ThemeState) :
    (toggleTheme (toggleTheme st)).currentTheme = st.currentTheme := by
  cases st with
  | mk c stored notified => cases c <;> rfl

end Explorador
